import Mathlib

/-!
Verification development for memspy, a memory-probing monitor.

The source (src/memspy.py) launches a child process, samples the resident
memory of the child and its descendants at a fixed interval, drains the
child's stdout/stderr through background reader threads, and writes the
formatted records to an output file and the terminal.

The embedding below is a shallow one.  External observations (psutil
lookups, queue contents, poll results, filesystem outcomes) are passed in
as explicit data; the functions themselves are direct translations of the
Python functions.  Machine-level details are modelled with documented
approximations: CPython float formatting of the mebibyte value is modelled
by exact rational rounding half-to-even, and Python `repr` of a command
list is modelled for strings that need no escaping.
-/

namespace Memspy

/-- Data model: one process's pid, resident memory in bytes, and command
line.  Mirrors the `ProcessInfo` dataclass. -/
structure ProcessInfo where
  pid : Int
  mem : Nat
  cmd : List String
deriving DecidableEq, Repr

/-- Data model: root process plus its descendant list, in enumeration
order.  Mirrors the `ProcessTreeInfo` dataclass. -/
structure ProcessTreeInfo where
  pi : ProcessInfo
  children : List ProcessInfo
deriving DecidableEq, Repr

/-! ## Formatting helpers -/

/-- The single-quote character, used by Python `repr` of strings. -/
def squoteChar : Char := Char.ofNat 39

/-- Python `repr` of a string, modelled for strings containing no
characters that `repr` would escape. -/
def pyStrRepr (s : String) : String :=
  String.singleton squoteChar ++ s ++ String.singleton squoteChar

/-- Python `repr` of a list of strings (as produced by the f-string
`cmd={c.cmd}` in `produce_txt`), for strings needing no escapes. -/
def pyListRepr (xs : List String) : String :=
  "[" ++ String.intercalate ", " (xs.map pyStrRepr) ++ "]"

/-- Round `num / den` to the nearest integer, ties to even.  Used to model
CPython's `"%.3f"` rendering of the quotient. -/
def roundHalfEven (num den : Nat) : Nat :=
  let q := num / den
  let r := num % den
  if den < 2 * r then q + 1
  else if 2 * r < den then q
  else if q % 2 = 0 then q else q + 1

/-- Model of the Python expression `"{:.3f}".format(mem / (1024*1024))`:
the byte count divided by 2^20, printed with exactly three decimal
places.  The double rounding of the float is modelled by exact rational
rounding (ties to even); no claim in this development depends on the
digits of an inexact quotient. -/
def fmtMem3 (mem : Nat) : String :=
  let t := roundHalfEven (mem * 1000) (1024 * 1024)
  let fs := toString (t % 1000)
  toString (t / 1000) ++ "." ++ String.mk (List.replicate (3 - fs.length) '0') ++ fs

/-- One child line of `ProcessTreeInfoPrinter.produce_txt`:
`f"prob> [{timestamp}]   - pid={c.pid}, mem={...:.3f}M, cmd={c.cmd}\n"`. -/
def child_line (ts : String) (c : ProcessInfo) : String :=
  "prob> [" ++ ts ++ "]   - pid=" ++ toString c.pid ++ ", mem=" ++
    fmtMem3 c.mem ++ "M, cmd=" ++ pyListRepr c.cmd ++ "\n"

/-- `ProcessTreeInfoPrinter.produce_txt`, with the ambient
`datetime.datetime.now().strftime("%Y-%m-%d %H:%M:%S")` made an explicit
`ts` argument: header line for the root, then one line per child. -/
def produce_txt (pt : ProcessTreeInfo) (ts : String) : String :=
  "prob> [" ++ ts ++ "] pid=" ++ toString pt.pi.pid ++ ", mem=" ++
    fmtMem3 pt.pi.mem ++ "M :\n" ++
  String.join (pt.children.map (child_line ts))

/-! ## ProcessSnapshot Collector (`get_process_tree_info`) -/

/-- One enumerated descendant as observed at inspection time: its pid, and
either the pair (resident memory, command line) when both reads succeed,
or `none` when the per-child inspection raises (child already gone). -/
structure ChildObs where
  pid : Int
  inspect : Option (Nat × List String)
deriving DecidableEq, Repr

/-- Outcome of the root lookup `psutil.Process(pid)` / `memory_info()`:
the process is gone (`psutil.NoSuchProcess`), some other exception is
raised, or it succeeds with an rss reading and the (possibly failing)
recursive children enumeration. -/
inductive RootLookup where
  | noSuchProcess
  | otherError (e : String)
  | ok (rss : Nat) (childrenEnum : Except String (List ChildObs))
deriving Repr

/-- The per-child loop of `get_process_tree_info`: append a `ProcessInfo`
for every child whose memory and command line were both read, and skip
(`continue`) the ones whose inspection raised. -/
def collectChildren : List ChildObs → List ProcessInfo
  | [] => []
  | c :: rest =>
    match c.inspect with
    | none => collectChildren rest
    | some (m, cm) => ⟨c.pid, m, cm⟩ :: collectChildren rest

/-- `get_process_tree_info`: `.ok none` models `return None` (the
`NoSuchProcess` branch), `.error e` models the re-raise of any other
exception, and `.ok (some pt)` a returned snapshot.  A failing children
enumeration yields the root with an empty children list. -/
def get_process_tree_info (pid : Int) (env : RootLookup) :
    Except String (Option ProcessTreeInfo) :=
  match env with
  | .noSuchProcess => .ok none
  | .otherError e => .error e
  | .ok rss kids =>
    let root_info : ProcessInfo := ⟨pid, rss, []⟩
    match kids with
    | .error _ => .ok (some ⟨root_info, []⟩)
    | .ok children => .ok (some ⟨root_info, collectChildren children⟩)

/-! ## Stream Drainer (`StreamReader`) -/

/-- The whitespace characters that Python's `str.rstrip()` removes,
restricted to the ASCII range produced by text-mode pipes: space, tab,
newline, carriage return, vertical tab, form feed. -/
def pyIsSpace (c : Char) : Bool :=
  c == Char.ofNat 32 || c == Char.ofNat 9 || c == Char.ofNat 10 ||
  c == Char.ofNat 13 || c == Char.ofNat 11 || c == Char.ofNat 12

/-- Python `line.rstrip()` (no argument): remove the maximal trailing run
of whitespace characters. -/
def rstrip (s : String) : String :=
  String.mk ((s.data.reverse.dropWhile pyIsSpace).reverse)

/-- Line-terminator characters: newline and carriage return. -/
def isLineTerm (c : Char) : Bool :=
  c == Char.ofNat 10 || c == Char.ofNat 13

/-- Modelled from the spec: removal of only the trailing line terminator
("stripped of trailing newline/carriage-return characters"), for
comparison with the source's `rstrip`. -/
def stripLineTerm (s : String) : String :=
  String.mk ((s.data.reverse.dropWhile isLineTerm).reverse)

/-- The `StreamReader.__read_line` generator, run to exhaustion on a queue
holding the raw lines the worker thread buffered (each as produced by
`readline`, terminator included): it yields `line.rstrip()` for every
queued string, in queue (FIFO) order. -/
def readLineAll (q : List String) : List String :=
  q.map rstrip

/-- `StreamReader.read_lines`: each drained line prefixed with the stream
tag.  The comprehension's `if line is not None` filter never rejects a
yielded value (the generator only yields strings), so it keeps every
element. -/
def read_lines ( line_prefix : String) (q : List String) : List String :=
  (readLineAll q).map (fun line => line_prefix ++ "> " ++ line)

/-! ## Monitor loop tick formatting (`monitor_command`, lines 155-160) -/

/-- The drained part of one tick's batch: `log_lines.extend(stdout_reader.
read_lines())` followed by `log_lines.extend(stderr_reader.read_lines())`
given the two queues' contents at drain time. -/
def drainBatch (qout qerr : List String) : List String :=
  read_lines "stdout" qout ++ read_lines "stderr" qerr

/-- One tick's `log_lines` before the newline mapping: the snapshot text
then the drained batch. -/
def log_lines (pt : ProcessTreeInfo) (ts : String) (qout qerr : List String) :
    List String :=
  [produce_txt pt ts] ++ drainBatch qout qerr

/-- One tick's written lines: `log_lines = [f"{line}\n" for line in
log_lines]`. -/
def tickLines (pt : ProcessTreeInfo) (ts : String) (qout qerr : List String) :
    List String :=
  ( log_lines pt ts qout qerr).map (fun line => line ++ "\n")

/-- The first eight characters of a line, which for a drained line carry
its stream tag (`stdout> ` or `stderr> `). -/
def streamTagOf (s : String) : List Char := s.data.take 8

/-- The newline character. -/
def nlChar : Char := Char.ofNat 10

/-- A string ends with a newline. -/
def endsNl (s : String) : Prop := s.data.getLast? = some nlChar

/-! ## Monitor loop and startup (`try_remove_file`, `monitor_command`) -/

/-- Output channels of the monitoring process itself. -/
inductive Channel where
  | stdout
  | stderr
deriving DecidableEq, Repr

/-- Externally visible effects of `monitor_command`.  `printMsg` is a
Python `print(...)` call, which writes to `Channel.stdout`; `removeFile`
a successful `os.remove`; `fileAppend` one append-open/writelines/flush of
the output file; `termWrite` the `sys.stdout.writelines` of the same
lines; `exitProc` a `sys.exit`. -/
inductive Effect where
  | printMsg (c : Channel) (msg : String)
  | removeFile (path : String)
  | fileAppend (path : String) (lines : List String)
  | termWrite (lines : List String)
  | exitProc (status : Nat)
deriving DecidableEq, Repr

/-- How `monitor_command` ends: a normal return (program exit status 0) or
a `sys.exit` with the given status. -/
inductive Outcome where
  | finished
  | failed (status : Nat)
deriving DecidableEq, Repr

/-- Outcome of the `os.remove(file)` call in `try_remove_file`. -/
inductive RemoveResult where
  | ok
  | notFound
  | permissionDenied
  | otherError (e : String)
deriving DecidableEq, Repr

/-- `try_remove_file`: success (also on `FileNotFoundError`) returns
`true`; `PermissionError` and any other exception print an error and
return `false`. -/
def try_remove_file (file : String) (r : RemoveResult) : List Effect × Bool :=
  match r with
  | .ok => ([.removeFile file], true)
  | .notFound => ([], true)
  | .permissionDenied =>
    ([.printMsg .stdout
      ("Error: Permission denied: unable to rewrite " ++ pyStrRepr file)], false)
  | .otherError e =>
    ([.printMsg .stdout
      ("Error: unable to rewrite " ++ pyStrRepr file ++ ": " ++ e)], false)

/-- What's observed at the head of one iteration of the `while
process.poll() is None` loop: either `poll()` reports the child exited
(loop condition fails), or the child is still running and the tick
proceeds with the given capture observation, timestamp and queue
contents. -/
inductive TickObs where
  | exited (code : Int)
  | running (cap : RootLookup) (ts : String) (qout qerr : List String)

/-- The `while process.poll() is None` loop of `monitor_command`, over the
sequence of per-iteration observations (an exhausted sequence means the
child has exited).  Exceptions from the capture print an error and
`sys.exit(1)`; a `None` capture returns normally; a snapshot appends the
formatted tick to the output file and the terminal and continues. -/
def monitor_loop (output_file : String) (pid : Int) :
    List TickObs → List Effect × Outcome
  | [] => ([], .finished)
  | .exited _ :: _ => ([], .finished)
  | .running cap ts qout qerr :: rest =>
    match get_process_tree_info pid cap with
    | .error e =>
      ([.printMsg .stdout
        ("Error: Cannot get process (pid=" ++ toString pid ++ ") info: " ++ e),
        .exitProc 1], .failed 1)
    | .ok none => ([], .finished)
    | .ok (some pt) =>
      let lines := tickLines pt ts qout qerr
      let rec_result := monitor_loop output_file pid rest
      (Effect.fileAppend output_file lines :: Effect.termWrite lines ::
        rec_result.1, rec_result.2)

/-- Startup observations for `monitor_command`: the `os.remove` outcome,
the `subprocess.Popen` outcome (child pid on success), and the
`StreamReader` construction outcome. -/
structure StartEnv where
  removeResult : RemoveResult
  popen : Except String Int
  readers : Except String Unit

/-- `monitor_command`: clear the output file (exit 1 on failure), launch
the child (exit 1 on failure), attach the two stream readers (exit 1 on
failure), then run the polling loop. -/
def monitor_command (interval : Nat) (output_file : String)
    (command : List String) (env : StartEnv) (ticks : List TickObs) :
    List Effect × Outcome :=
  let r1 := try_remove_file output_file env.removeResult
  if r1.2 = false then (r1.1 ++ [.exitProc 1], .failed 1)
  else
    match env.popen with
    | .error e =>
      (r1.1 ++ [.printMsg .stdout ("Error: Cannot start process: " ++ e),
        .exitProc 1], .failed 1)
    | .ok pid =>
      match env.readers with
      | .error e =>
        (r1.1 ++ [.printMsg .stdout
          ("Error: Cannot setup process stdout/stderr reader: " ++ e),
          .exitProc 1], .failed 1)
      | .ok _ =>
        let lr := monitor_loop output_file pid ticks
        (r1.1 ++ lr.1, lr.2)

/-- The startup step of `monitor_command` hits one of its three fatal
branches: the output file cannot be cleared, the child cannot be
launched, or the stream readers cannot be attached. -/
def startup_fails (env : StartEnv) : Bool :=
  match env.removeResult, env.popen, env.readers with
  | .permissionDenied, _, _ => true
  | .otherError _, _, _ => true
  | _, .error _, _ => true
  | _, _, .error _ => true
  | _, _, _ => false

/-- All three startup steps of `monitor_command` succeed. -/
def startup_ok (env : StartEnv) : Bool :=
  match env.removeResult, env.popen, env.readers with
  | .ok, .ok _, .ok _ => true
  | .notFound, .ok _, .ok _ => true
  | _, _, _ => false

/-- The first loop iteration terminates the loop without a tick: the
liveness poll reports exit, or the capture finds the process gone. -/
def ends_immediately : TickObs → Bool
  | .exited _ => true
  | .running .noSuchProcess _ _ _ => true
  | _ => false

/-- A loop iteration whose capture raises an unexpected exception — the
mid-run fatal collection failure. -/
def fatal_tick : TickObs → Bool
  | .running (.otherError _) _ _ _ => true
  | _ => false

/-- A loop iteration that completes a full tick and lets the loop
continue: the poll reports the child running and the capture returns a
snapshot. -/
def continuing_tick : TickObs → Bool
  | .running (.ok _ _) _ _ _ => true
  | _ => false

/-- The loop actually reaches a mid-run fatal collection failure: some
iteration's capture raises, and every earlier iteration completed a full
tick (so the loop was still running when the failure occurred). -/
def reaches_fatal : List TickObs → Bool
  | [] => false
  | t :: rest => fatal_tick t || (continuing_tick t && reaches_fatal rest)

end Memspy

namespace Memspy

/-! ## Shared helper lemmas -/

/-- Helper: every `ProcessInfo` that `collectChildren` emits comes from an
observation whose inspection fully succeeded with exactly those values. -/
theorem collectChildren_sound (kids : List ChildObs) :
    ∀ ci ∈ collectChildren kids,
      ∃ c ∈ kids, ci.pid = c.pid ∧ c.inspect = some (ci.mem, ci.cmd) := by
  induction kids with
  | nil => intro ci h; cases h
  | cons c rest ih =>
    intro ci hci
    rcases hc : c.inspect with _ | ⟨m, cm⟩
    · simp only [collectChildren, hc] at hci
      obtain ⟨d, hd, hprop⟩ := ih ci hci
      exact ⟨d, List.mem_cons_of_mem _ hd, hprop⟩
    · simp only [collectChildren, hc, List.mem_cons] at hci
      rcases hci with hci | hci
      · subst hci
        exact ⟨c, List.mem_cons_self _ _, rfl, hc⟩
      · obtain ⟨d, hd, hprop⟩ := ih ci hci
        exact ⟨d, List.mem_cons_of_mem _ hd, hprop⟩

/-- Helper: appending to the left preserves a trailing newline. -/
theorem endsNl_append (a b : String) (h : endsNl b) : endsNl (a ++ b) := by
  unfold endsNl at *
  rw [String.data_append, List.getLast?_append, h]
  rfl

/-- Helper: a left fold of string appends ends with a newline when every
folded string does and either the accumulator does or the list is
nonempty. -/
theorem foldl_append_endsNl : ∀ (l : List String) (acc : String),
    (∀ s ∈ l, endsNl s) → (endsNl acc ∨ l ≠ []) →
    endsNl (l.foldl (fun r s => r ++ s) acc)
  | [], _, _, h => h.resolve_right (by simp)
  | x :: xs, acc, hl, _ => by
    simp only [List.foldl_cons]
    exact foldl_append_endsNl xs (acc ++ x)
      (fun s hs => hl s (List.mem_cons_of_mem _ hs))
      (Or.inl (endsNl_append acc x (hl x (List.mem_cons_self _ _))))

/-- Helper: every child line ends with a newline. -/
theorem endsNl_child_line (ts : String) (c : ProcessInfo) :
    endsNl (child_line ts c) := by
  unfold child_line
  repeat apply endsNl_append
  rfl

/-- Helper: the snapshot text always ends with a newline (the header's
when there are no children, the last child line's otherwise). -/
theorem endsNl_produce_txt (pt : ProcessTreeInfo) (ts : String) :
    endsNl (produce_txt pt ts) := by
  unfold produce_txt
  cases h : pt.children with
  | nil =>
    rw [List.map_nil, show String.join [] = "" from rfl, String.append_empty]
    repeat apply endsNl_append
    rfl
  | cons c cs =>
    apply endsNl_append
    apply foldl_append_endsNl
    · intro s hs
      rw [List.mem_map] at hs
      obtain ⟨d, _, rfl⟩ := hs
      exact endsNl_child_line ts d
    · right
      simp

/-- Helper: the head of `dropWhile p` never satisfies `p`. -/
theorem head_dropWhile_not (p : Char → Bool) (l : List Char) :
    ∀ c ∈ (l.dropWhile p).head?, p c = false := by
  induction l with
  | nil => simp [List.dropWhile]
  | cons a l ih =>
    by_cases h : p a
    · simpa [List.dropWhile, h] using ih
    · simp [List.dropWhile, h]

/-- Helper: `rstrip` removes exactly a trailing run of whitespace and
leaves a string that does not end in whitespace. -/
theorem rstrip_spec (s : String) :
    (∃ t, s.data = (rstrip s).data ++ t ∧ ∀ c ∈ t, pyIsSpace c = true) ∧
    ∀ c ∈ (rstrip s).data.getLast?, pyIsSpace c = false := by
  constructor
  · refine ⟨(s.data.reverse.takeWhile pyIsSpace).reverse, ?_, ?_⟩
    · show s.data = (s.data.reverse.dropWhile pyIsSpace).reverse ++ _
      rw [← List.reverse_append, List.takeWhile_append_dropWhile,
        List.reverse_reverse]
    · intro c hc
      rw [List.mem_reverse] at hc
      exact List.mem_takeWhile_imp hc
  · intro c hc
    have he : (rstrip s).data = (s.data.reverse.dropWhile pyIsSpace).reverse := rfl
    rw [he, List.getLast?_reverse] at hc
    exact head_dropWhile_not pyIsSpace s.data.reverse c hc

/-- Helper: a stdout-tagged line carries the `stdout> ` tag. -/
theorem take8_stdout (x : String) :
    (("stdout" : String) ++ "> " ++ x).data.take 8 = ("stdout> " : String).data := by
  rw [String.data_append, List.take_append_of_le_length (by decide)]
  rfl

/-- Helper: a stderr-tagged line carries the `stderr> ` tag. -/
theorem take8_stderr (x : String) :
    (("stderr" : String) ++ "> " ++ x).data.take 8 = ("stderr> " : String).data := by
  rw [String.data_append, List.take_append_of_le_length (by decide)]
  rfl

/-- Helper: every element of `read_lines` is the tag followed by a drained
line. -/
theorem mem_read_lines {t : String} {q : List String} {s : String}
    (hs : s ∈ read_lines t q) : ∃ x, s = t ++ "> " ++ x := by
  simp only [read_lines, readLineAll, List.map_map, List.mem_map,
    Function.comp] at hs
  obtain ⟨l, _, rfl⟩ := hs
  exact ⟨rstrip l, rfl⟩

/-- Helper: a string starting with `Error` still does after an append. -/
theorem prefix_error (a rest : String)
    (h : ("Error" : String).data <+: a.data) :
    ("Error" : String).data <+: (a ++ rest).data := by
  rw [String.data_append]
  exact h.trans (List.prefix_append _ _)

/-- Helper: whenever the polling loop exits with status 1, it has printed
an `Error`-prefixed message via `print` (standard output) and called
`sys.exit(1)`. -/
theorem monitor_loop_failed (o : String) (pid : Int) (ticks : List TickObs)
    (h : (monitor_loop o pid ticks).2 = Outcome.failed 1) :
    (∃ m, Effect.printMsg Channel.stdout m ∈ (monitor_loop o pid ticks).1 ∧
      ("Error" : String).data <+: m.data) ∧
    Effect.exitProc 1 ∈ (monitor_loop o pid ticks).1 := by
  induction ticks with
  | nil => simp [monitor_loop] at h
  | cons t rest ih =>
    cases t with
    | exited c => simp [monitor_loop] at h
    | running cap ts qo qe =>
      cases hcap : get_process_tree_info pid cap with
      | error e =>
        simp only [monitor_loop, hcap]
        refine ⟨⟨"Error: Cannot get process (pid=" ++ toString pid ++
          ") info: " ++ e, ?_, ?_⟩, ?_⟩
        · exact List.mem_cons_self _ _
        · exact prefix_error _ e (prefix_error _ ") info: "
            (prefix_error _ (toString pid) (by decide)))
        · exact List.mem_cons_of_mem _ (List.mem_cons_self _ _)
      | ok v =>
        cases v with
        | none => simp [monitor_loop, hcap] at h
        | some pt =>
          simp only [monitor_loop, hcap] at h ⊢
          obtain ⟨⟨m, hm, hpre⟩, hexit⟩ := ih h
          exact ⟨⟨m, List.mem_cons_of_mem _ (List.mem_cons_of_mem _ hm), hpre⟩,
            List.mem_cons_of_mem _ (List.mem_cons_of_mem _ hexit)⟩

/-- Helper: when the polling loop reaches a fatal capture (a tick whose
capture raises, after zero or more completed ticks), it exits with status
1. -/
theorem monitor_loop_reaches_fatal (o : String) (pid : Int) :
    ∀ ticks : List TickObs, reaches_fatal ticks = true →
      (monitor_loop o pid ticks).2 = Outcome.failed 1
  | [], h => by simp [reaches_fatal] at h
  | t :: rest, h => by
    cases t with
    | exited c => simp [reaches_fatal, fatal_tick, continuing_tick] at h
    | running cap ts qo qe =>
      cases cap with
      | noSuchProcess => simp [reaches_fatal, fatal_tick, continuing_tick] at h
      | otherError e => rfl
      | ok rss kids =>
        have hrest : reaches_fatal rest = true := by
          simpa [reaches_fatal, fatal_tick, continuing_tick] using h
        cases kids with
        | error e2 =>
          show (monitor_loop o pid rest).2 = Outcome.failed 1
          exact monitor_loop_reaches_fatal o pid rest hrest
        | ok children =>
          show (monitor_loop o pid rest).2 = Outcome.failed 1
          exact monitor_loop_reaches_fatal o pid rest hrest

/-! ## Claims -/

/-- C1: every element of a returned snapshot's children list comes from a
descendant whose inspection fully succeeded (its resident memory and
command line were both read, and are exactly the recorded values), and a
per-descendant inspection failure never fails the whole snapshot: for any
mixture of succeeding and failing descendants the call still returns a
snapshot, whose children are exactly the fully inspected ones. -/
theorem children_fully_inspected (pid : Int) (rss : Nat) (kids : List ChildObs) :
    get_process_tree_info pid (.ok rss (.ok kids)) =
      .ok (some ⟨⟨pid, rss, []⟩, collectChildren kids⟩) ∧
    ∀ ci ∈ collectChildren kids,
      ∃ c ∈ kids, ci.pid = c.pid ∧ c.inspect = some (ci.mem, ci.cmd) :=
  ⟨rfl, collectChildren_sound kids⟩

/-- C1 witness: with one live descendant and one vanished one, the
snapshot is still produced, and its single child is traced back to the
fully inspected observation. -/
theorem children_fully_inspected_witness :
    get_process_tree_info 1 (.ok 50 (.ok [⟨5, some (100, ["a"])⟩, ⟨6, none⟩])) =
      .ok (some ⟨⟨1, 50, []⟩, [⟨5, 100, ["a"]⟩]⟩) ∧
    ∃ c ∈ [(⟨5, some (100, ["a"])⟩ : ChildObs), ⟨6, none⟩],
      (⟨5, 100, ["a"]⟩ : ProcessInfo).pid = c.pid ∧
      c.inspect = some ((⟨5, 100, ["a"]⟩ : ProcessInfo).mem,
        (⟨5, 100, ["a"]⟩ : ProcessInfo).cmd) :=
  ⟨(children_fully_inspected 1 50 [⟨5, some (100, ["a"])⟩, ⟨6, none⟩]).1,
   (children_fully_inspected 1 50 [⟨5, some (100, ["a"])⟩, ⟨6, none⟩]).2
     ⟨5, 100, ["a"]⟩ (by decide)⟩

/-- C2: the capture returns `None` (NotFound) exactly when the root lookup
observes that the process no longer exists (`psutil.NoSuchProcess`, which
is what a process that exited before the call produces), and any other
root-lookup failure is re-raised to the caller rather than absorbed. -/
theorem capture_notfound_iff (pid : Int) (env : RootLookup) :
    (get_process_tree_info pid env = .ok none ↔ env = .noSuchProcess) ∧
    (∀ e, env = .otherError e → get_process_tree_info pid env = .error e) := by
  constructor
  · constructor
    · intro h
      cases env with
      | noSuchProcess => rfl
      | otherError e => exact absurd h (by simp [get_process_tree_info])
      | ok rss kids =>
        cases kids with
        | error e => exact absurd h (by simp [get_process_tree_info])
        | ok children => exact absurd h (by simp [get_process_tree_info])
    · intro h; subst h; rfl
  · intro e h; subst h; rfl

/-- C2 witness: a concrete exited process gives NotFound, and a concrete
unexpected root failure propagates as an error. -/
theorem capture_notfound_iff_witness :
    get_process_tree_info 7 .noSuchProcess = .ok none ∧
    get_process_tree_info 7 (.otherError "boom") = .error "boom" :=
  ⟨(capture_notfound_iff 7 .noSuchProcess).1.mpr rfl,
   (capture_notfound_iff 7 (.otherError "boom")).2 "boom" rfl⟩

/-- C3 counterexample: the claim says each `stdout> ` / `stderr> ` tagged
line is also timestamp-prefixed, but on a concrete tick the tagged line
is exactly the tag and the drained text: the timestamp does not occur in
it at all (the record's second element is `stdout> hello` plus the
trailing newline the loop appends, with no timestamp). -/
theorem tagged_line_lacks_timestamp :
    tickLines ⟨⟨7, 1048576, []⟩, []⟩ "2024-01-02 03:04:05" ["hello\n"] [] =
      ["prob> [2024-01-02 03:04:05] pid=7, mem=1.000M :\n\n", "stdout> hello\n"] ∧
    ¬ (("2024-01-02 03:04:05" : String).data <:+:
        ("stdout> hello\n" : String).data) := by
  refine ⟨rfl, ?_⟩
  decide

/-- C3 (amended): the record is one header string (header line with root
pid, memory in mebibytes with 3 decimals and the timestamp, followed by
one timestamped line per child with pid, memory and command line), then
one tagged line per drained stdout line and one per drained stderr line;
the tagged lines are `stdout> <text>` / `stderr> <text>` with no
timestamp prefix, and every element gets a trailing newline. -/
theorem record_format (pt : ProcessTreeInfo) (ts : String)
    (qout qerr : List String) :
    tickLines pt ts qout qerr =
      ("prob> [" ++ ts ++ "] pid=" ++ toString pt.pi.pid ++ ", mem=" ++
        fmtMem3 pt.pi.mem ++ "M :\n" ++
        String.join (pt.children.map (fun c =>
          "prob> [" ++ ts ++ "]   - pid=" ++ toString c.pid ++ ", mem=" ++
            fmtMem3 c.mem ++ "M, cmd=" ++ pyListRepr c.cmd ++ "\n")) ++ "\n")
      :: (qout.map (fun l => "stdout> " ++ rstrip l ++ "\n") ++
          qerr.map (fun l => "stderr> " ++ rstrip l ++ "\n")) := by
  unfold tickLines log_lines drainBatch read_lines readLineAll produce_txt child_line
  simp only [List.map_append, List.map_map, List.singleton_append, List.map_cons,
    List.map_nil, Function.comp_def]
  rw [show ("stdout" : String) ++ "> " = "stdout> " from rfl,
      show ("stderr" : String) ++ "> " = "stderr> " from rfl]

/-- C4 counterexample: the claim says only trailing newline and carriage
return characters are removed, trailing spaces being preserved; but the
drain of a queued line `abc \n` yields `abc` (the code's `rstrip()` also
removed the trailing space), while the written text minus its line
terminator is `abc ` — the two differ. -/
theorem rstrip_not_only_line_terminators :
    readLineAll ["abc \n"] = ["abc"] ∧
    stripLineTerm "abc \n" = "abc " ∧
    ("abc" : String) ≠ "abc " := by
  refine ⟨rfl, rfl, ?_⟩
  decide

/-- C4 (amended): draining after N complete lines have been written yields
exactly those N lines in order, each equal to the written text with its
maximal trailing run of whitespace characters (newline, carriage return,
space, tab, vertical tab, form feed) removed — not just the line
terminator. -/
theorem drain_strips_trailing_whitespace (q : List String) :
    readLineAll q = q.map rstrip ∧
    ∀ s : String,
      (∃ t, s.data = (rstrip s).data ++ t ∧ ∀ c ∈ t, pyIsSpace c = true) ∧
      ∀ c ∈ (rstrip s).data.getLast?, pyIsSpace c = false :=
  ⟨rfl, fun s => rstrip_spec s⟩

/-- C4 witness: the drained form of the written line `abc \n` differs from
it by a trailing run of whitespace only. -/
theorem drain_strips_trailing_whitespace_witness :
    ∃ t, ("abc \n" : String).data = (rstrip "abc \n").data ++ t ∧
      ∀ c ∈ t, pyIsSpace c = true :=
  ((drain_strips_trailing_whitespace ["abc \n"]).2 "abc \n").1

/-- C5: tick formatting is a pure function of the snapshot, the drained
queues and the timestamp: equal inputs give byte-identical output.  In
this shallow embedding `tickLines` is a mathematical function — it
performs no I/O and cannot mutate its arguments — so determinism is the
stated congruence. -/
theorem format_deterministic (pt pt' : ProcessTreeInfo) (ts ts' : String)
    (qo qo' qe qe' : List String)
    (h1 : pt = pt') (h2 : ts = ts') (h3 : qo = qo') (h4 : qe = qe') :
    tickLines pt ts qo qe = tickLines pt' ts' qo' qe' := by
  subst h1; subst h2; subst h3; subst h4; rfl

/-- C5 witness: formatting the same concrete snapshot and batch twice
gives the same output. -/
theorem format_deterministic_witness :
    tickLines ⟨⟨1, 0, []⟩, []⟩ "T" ["x\n"] [] =
    tickLines ⟨⟨1, 0, []⟩, []⟩ "T" ["x\n"] [] :=
  format_deterministic ⟨⟨1, 0, []⟩, []⟩ ⟨⟨1, 0, []⟩, []⟩ "T" "T"
    ["x\n"] ["x\n"] [] [] rfl rfl rfl rfl

/-- C6 counterexample: on a concrete startup failure (output file not
deletable for permissions) the program prints its descriptive error via
`print`, i.e. to standard output — not to standard error as the claim
states — and exits with status 1; the effect trace contains no write to
`Channel.stderr` at all. -/
theorem startup_error_printed_to_stdout :
    monitor_command 1 "out.txt" ["cmd"] ⟨.permissionDenied, .ok 5, .ok ()⟩ [] =
      ([Effect.printMsg Channel.stdout
          ("Error: Permission denied: unable to rewrite " ++ pyStrRepr "out.txt"),
        Effect.exitProc 1], Outcome.failed 1) ∧
    Channel.stdout ≠ Channel.stderr := by
  refine ⟨rfl, ?_⟩
  decide

/-- C6 (amended): every startup failure makes the program terminate with
exit status 1; every reached mid-run fatal collection failure (a capture
that raises, after startup succeeded and every earlier tick completed)
also makes it terminate with exit status 1; and whenever it terminates
with exit status 1 it has printed a descriptive `Error`-prefixed message
to standard output (`print` writes to stdout, not stderr) and called
`sys.exit(1)`. -/
theorem failure_reports_error_and_exits_1 (i : Nat) (o : String)
    (cmd : List String) (env : StartEnv) (ticks : List TickObs) :
    (startup_fails env = true →
      (monitor_command i o cmd env ticks).2 = Outcome.failed 1) ∧
    (startup_ok env = true → reaches_fatal ticks = true →
      (monitor_command i o cmd env ticks).2 = Outcome.failed 1) ∧
    ((monitor_command i o cmd env ticks).2 = Outcome.failed 1 →
      (∃ m, Effect.printMsg Channel.stdout m ∈ (monitor_command i o cmd env ticks).1 ∧
        ("Error" : String).data <+: m.data) ∧
      Effect.exitProc 1 ∈ (monitor_command i o cmd env ticks).1) := by
  obtain ⟨r, p, rd⟩ := env
  cases r <;> cases p <;> cases rd <;>
    simp only [monitor_command, try_remove_file, startup_fails, startup_ok,
      monitor_loop] <;>
    simp_all
  all_goals exact ⟨fun h => monitor_loop_reaches_fatal o _ ticks h,
    fun h => monitor_loop_failed o _ ticks h⟩

/-- C6 witness: a concrete startup failure exits with status 1, and a
concrete mid-run fatal capture (good startup, first tick's capture
raises) also exits with status 1 with the `sys.exit(1)` effect recorded. -/
theorem failure_reports_error_and_exits_1_witness :
    (monitor_command 1 "o" [] ⟨.permissionDenied, .ok 5, .ok ()⟩ []).2 =
      Outcome.failed 1 ∧
    (monitor_command 1 "o" [] ⟨.ok, .ok 5, .ok ()⟩
      [.running (.otherError "boom") "T" [] []]).2 = Outcome.failed 1 ∧
    Effect.exitProc 1 ∈
      (monitor_command 1 "o" [] ⟨.ok, .ok 5, .ok ()⟩
        [.running (.otherError "boom") "T" [] []]).1 :=
  ⟨(failure_reports_error_and_exits_1 1 "o" [] ⟨.permissionDenied, .ok 5, .ok ()⟩
      []).1 (by rfl),
   (failure_reports_error_and_exits_1 1 "o" [] ⟨.ok, .ok 5, .ok ()⟩
      [.running (.otherError "boom") "T" [] []]).2.1 (by rfl) (by rfl),
   ((failure_reports_error_and_exits_1 1 "o" [] ⟨.ok, .ok 5, .ok ()⟩
      [.running (.otherError "boom") "T" [] []]).2.2
      ((failure_reports_error_and_exits_1 1 "o" [] ⟨.ok, .ok 5, .ok ()⟩
        [.running (.otherError "boom") "T" [] []]).2.1 (by rfl) (by rfl))).2⟩

/-- C7: within one tick's drained batch, the batch is exactly the tagged
stdout queue contents (in FIFO order) followed by the tagged stderr queue
contents (in FIFO order) — a deterministic function of the queue contents
— and positionally, a `stdout> `-tagged element never appears after a
`stderr> `-tagged one. -/
theorem batch_stdout_before_stderr (qo qe : List String) :
    drainBatch qo qe =
      qo.map (fun l => "stdout> " ++ rstrip l) ++
      qe.map (fun l => "stderr> " ++ rstrip l) ∧
    ∀ (i j : Nat) (hi : i < (drainBatch qo qe).length)
      (hj : j < (drainBatch qo qe).length),
      streamTagOf ((drainBatch qo qe)[i]) = ("stderr> " : String).data →
      streamTagOf ((drainBatch qo qe)[j]) = ("stdout> " : String).data →
      j < i := by
  constructor
  · unfold drainBatch read_lines readLineAll
    simp only [List.map_map, Function.comp_def]
    rw [show ("stdout" : String) ++ "> " = "stdout> " from rfl,
        show ("stderr" : String) ++ "> " = "stderr> " from rfl]
  intro i j hi hj herr hout
  have hA : ∀ (k : Nat) (hk : k < (drainBatch qo qe).length),
      k < (read_lines "stdout" qo).length →
      streamTagOf ((drainBatch qo qe)[k]) = ("stdout> " : String).data := by
    intro k hk hkA
    have hget : (drainBatch qo qe)[k] = (read_lines "stdout" qo)[k] :=
      List.getElem_append_left hkA
    obtain ⟨x, hx⟩ := mem_read_lines (List.getElem_mem hkA)
    rw [hget, hx]
    exact take8_stdout x
  have hB : ∀ (k : Nat) (hk : k < (drainBatch qo qe).length),
      (read_lines "stdout" qo).length ≤ k →
      streamTagOf ((drainBatch qo qe)[k]) = ("stderr> " : String).data := by
    intro k hk hkB
    have hk2 : k - (read_lines "stdout" qo).length <
        (read_lines "stderr" qe).length := by
      have hsum : (drainBatch qo qe).length =
          (read_lines "stdout" qo).length + (read_lines "stderr" qe).length := by
        simp [drainBatch]
      omega
    have hget : (drainBatch qo qe)[k] =
        (read_lines "stderr" qe)[k - (read_lines "stdout" qo).length] :=
      List.getElem_append_right hkB
    obtain ⟨x, hx⟩ := mem_read_lines (List.getElem_mem hk2)
    rw [hget, hx]
    exact take8_stderr x
  have hjlt : j < (read_lines "stdout" qo).length := by
    by_contra hge
    push_neg at hge
    have h2 := hB j hj hge
    rw [hout] at h2
    exact absurd h2 (by decide)
  have hige : (read_lines "stdout" qo).length ≤ i := by
    by_contra hlt
    push_neg at hlt
    have h2 := hA i hi hlt
    rw [herr] at h2
    exact absurd h2 (by decide)
  exact lt_of_lt_of_le hjlt hige

/-- C7 witness: in a concrete batch with one stdout and one stderr line,
the stderr-tagged element (index 1) is after the stdout-tagged one
(index 0). -/
theorem batch_stdout_before_stderr_witness :
    drainBatch ["a \n"] ["b\n"] =
      (["a \n"] : List String).map (fun l => "stdout> " ++ rstrip l) ++
      (["b\n"] : List String).map (fun l => "stderr> " ++ rstrip l) ∧
    (0 : Nat) < 1 :=
  ⟨(batch_stdout_before_stderr ["a \n"] ["b\n"]).1,
   (batch_stdout_before_stderr ["a \n"] ["b\n"]).2 1 0 (by decide) (by decide)
     (by decide) (by decide)⟩

/-- C8: the snapshot text is already newline-terminated, and the monitor
loop appends one further newline to every batch element, so the written
record's first element ends in two newlines — a blank line separates the
snapshot block from the tagged output lines. -/
theorem snapshot_block_followed_by_blank (pt : ProcessTreeInfo) (ts : String)
    (qout qerr : List String) :
    endsNl (produce_txt pt ts) ∧
    tickLines pt ts qout qerr =
      (produce_txt pt ts ++ "\n") ::
        (drainBatch qout qerr).map (fun l => l ++ "\n") := by
  refine ⟨endsNl_produce_txt pt ts, ?_⟩
  unfold tickLines log_lines
  simp [List.map_append]

/-- C9: whenever the capture returns a snapshot, the root `ProcessInfo`
carries the requested pid and an empty command line (the root's command
line is never populated). -/
theorem root_pid_and_empty_cmd (pid : Int) (env : RootLookup)
    (pt : ProcessTreeInfo)
    (h : get_process_tree_info pid env = .ok (some pt)) :
    pt.pi.pid = pid ∧ pt.pi.cmd = [] := by
  cases env with
  | noSuchProcess => simp [get_process_tree_info] at h
  | otherError e => simp [get_process_tree_info] at h
  | ok rss kids =>
    cases kids with
    | error e =>
      simp only [get_process_tree_info, Except.ok.injEq, Option.some.injEq] at h
      subst h; exact ⟨rfl, rfl⟩
    | ok children =>
      simp only [get_process_tree_info, Except.ok.injEq, Option.some.injEq] at h
      subst h; exact ⟨rfl, rfl⟩

/-- C9 witness: a concrete successful capture has root pid 7 and an empty
root command line. -/
theorem root_pid_and_empty_cmd_witness :
    (⟨⟨7, 50, []⟩, []⟩ : ProcessTreeInfo).pi.pid = 7 ∧
    (⟨⟨7, 50, []⟩, []⟩ : ProcessTreeInfo).pi.cmd = [] :=
  root_pid_and_empty_cmd 7 (.ok 50 (.error "dead")) ⟨⟨7, 50, []⟩, []⟩ rfl

/-- C10: with a successful startup, if the first loop iteration already
finds the child gone (the liveness poll reports exit, or the first
capture returns NotFound), the monitor returns normally (program exit
status 0) and the effect trace contains no append to the output file and
no terminal write: the file deleted at startup is never re-created. -/
theorem no_write_before_first_snapshot (i : Nat) (o : String)
    (cmd : List String) (env : StartEnv) (t : TickObs) (rest : List TickObs)
    (h1 : startup_ok env = true) (h2 : ends_immediately t = true) :
    (monitor_command i o cmd env (t :: rest)).2 = Outcome.finished ∧
    (∀ p ds, Effect.fileAppend p ds ∉ (monitor_command i o cmd env (t :: rest)).1) ∧
    ∀ ds, Effect.termWrite ds ∉ (monitor_command i o cmd env (t :: rest)).1 := by
  obtain ⟨r, p, rd⟩ := env
  have hloop : ∀ pid : Int, monitor_loop o pid (t :: rest) = ([], .finished) := by
    intro pid
    cases t with
    | exited c => rfl
    | running cap ts qo qe =>
      cases cap with
      | noSuchProcess => rfl
      | otherError e => simp [ends_immediately] at h2
      | ok rss kids => simp [ends_immediately] at h2
  cases r <;> cases p <;> cases rd <;>
    simp_all [startup_ok, monitor_command, try_remove_file, monitor_loop]

/-- C10 witness: a child that exits before the first tick leaves a trace
with no output-file append. -/
theorem no_write_before_first_snapshot_witness :
    (monitor_command 1 "out" [] ⟨.ok, .ok 5, .ok ()⟩ [.exited 0]).2 =
      Outcome.finished ∧
    Effect.fileAppend "out" ["x"] ∉
      (monitor_command 1 "out" [] ⟨.ok, .ok 5, .ok ()⟩ [.exited 0]).1 :=
  ⟨(no_write_before_first_snapshot 1 "out" [] ⟨.ok, .ok 5, .ok ()⟩ (.exited 0) []
      (by rfl) (by rfl)).1,
   (no_write_before_first_snapshot 1 "out" [] ⟨.ok, .ok 5, .ok ()⟩ (.exited 0) []
      (by rfl) (by rfl)).2.1 "out" ["x"]⟩

end Memspy
